import Mathlib

/-!
Shallow embedding of the detection-zone adjudication pipeline of the
aa-video repository (geometry, NMS, letterbox inverse, output parser,
zone filter, request validation), with theorems settling the spec claims.

Doubles are modelled as exact rationals, C++ ints as Lean integers.
-/

/-- A 2D point with rational coordinates, embedding aa::shared::Point. -/
structure Point where
  x : ℚ
  y : ℚ
deriving DecidableEq, Repr

/-- Zone type enumeration, embedding aa::shared::PolygonType. -/
inductive PolygonType where
  | UNSPECIFIED
  | INCLUSION
  | EXCLUSION
deriving DecidableEq, Repr

/-- A polygon zone, embedding aa::shared::Polygon: vertex list, type,
priority and target class list. -/
structure Polygon where
  vertices : List Point
  type : PolygonType
  priority : ℤ
  target_classes : List ℤ
deriving DecidableEq, Repr

/-- The constant EPSILON = 1e-10 used by the geometric predicates
(polygon.cpp). -/
def EPSILON : ℚ := 1 / 10 ^ 10

/-- Embedding of Polygon::IsPointOnLineSegment (polygon.cpp:159-181):
bounding-box check with EPSILON slack, then cross-product magnitude
below EPSILON. -/
def isPointOnLineSegment (px py x1 y1 x2 y2 : ℚ) : Bool :=
  let min_x := min x1 x2
  let max_x := max x1 x2
  let min_y := min y1 y2
  let max_y := max y1 y2
  if px < min_x - EPSILON ∨ px > max_x + EPSILON ∨ py < min_y - EPSILON ∨
      py > max_y + EPSILON then
    false
  else
    decide (|((x2 - x1) * (py - y1) - (y2 - y1) * (px - x1))| < EPSILON)

/-- Total vertex access: vertex i of the polygon, defaulting to the
origin out of range (indices used below always stay in range). -/
def Polygon.vtx (p : Polygon) (i : ℕ) : Point :=
  p.vertices.getD i ⟨0, 0⟩

/-- Boundary test of Polygon::Contains (polygon.cpp:114-133): the query
point is within EPSILON of vertex i (both coordinates), or lies on the
edge from vertex i to vertex (i+1) mod n. -/
def Polygon.boundaryHit (p : Polygon) (x y : ℚ) : Bool :=
  let n := p.vertices.length
  (List.range n).any fun i =>
    let vi := p.vtx i
    let vj := p.vtx ((i + 1) % n)
    (decide (|x - vi.x| < EPSILON) && decide (|y - vi.y| < EPSILON)) ||
      isPointOnLineSegment x y vi.x vi.y vj.x vj.y

/-- Crossing test of one ray-casting step (polygon.cpp:146): the edge
runs from (xj, yj) to (xi, yi) and the horizontal ray from (x, y)
toward +x crosses it. -/
def crossesEdge (x y xi yi xj yj : ℚ) : Bool :=
  (decide (yi > y) != decide (yj > y)) &&
    decide (x < (xj - xi) * (y - yi) / (yj - yi) + xi)

/-- Number of edges crossed by the horizontal ray in the ray-casting
loop of Polygon::Contains (polygon.cpp:136-150); for index i the other
endpoint is the previous vertex (j = i - 1, wrapping to n - 1 at i = 0). -/
def Polygon.rayCrossings (p : Polygon) (x y : ℚ) : ℕ :=
  let n := p.vertices.length
  ((List.range n).filter fun i =>
    let vi := p.vtx i
    let vj := p.vtx ((i + n - 1) % n)
    crossesEdge x y vi.x vi.y vj.x vj.y).length

/-- Embedding of Polygon::Contains (polygon.cpp:105-153): fewer than
three vertices is outside; a boundary hit is outside; otherwise odd
ray-crossing parity. -/
def Polygon.Contains (p : Polygon) (x y : ℚ) : Bool :=
  if p.vertices.length < 3 then false
  else if p.boundaryHit x y then false
  else p.rayCrossings x y % 2 == 1

/-- Embedding of Polygon::Scale (polygon.cpp:98-103): multiply every
vertex coordinate by the matching factor. -/
def Polygon.Scale (p : Polygon) (scale_x scale_y : ℚ) : Polygon :=
  { p with vertices := p.vertices.map fun v => ⟨v.x * scale_x, v.y * scale_y⟩ }

/-- Spec-side predicate: the query point is within EPSILON of some
vertex of the polygon (both coordinate differences below EPSILON). -/
def NearSomeVertex (p : Polygon) (x y : ℚ) : Prop :=
  ∃ i, i < p.vertices.length ∧
    |x - (p.vtx i).x| < EPSILON ∧ |y - (p.vtx i).y| < EPSILON

/-- Spec-side predicate: the query point lies on some edge of the
polygon (consecutive vertices, including the closing edge). -/
def OnSomeEdge (p : Polygon) (x y : ℚ) : Prop :=
  ∃ i, i < p.vertices.length ∧
    isPointOnLineSegment x y (p.vtx i).x (p.vtx i).y
      (p.vtx ((i + 1) % p.vertices.length)).x
      (p.vtx ((i + 1) % p.vertices.length)).y = true

/-- An axis-aligned integer rectangle, embedding cv::Rect as used by
the Detection record. -/
structure Rect where
  x : ℤ
  y : ℤ
  w : ℤ
  h : ℤ
deriving DecidableEq, Repr

/-- A detection record (detector_server.h:22-26): bounding box, class
identifier and confidence score. -/
structure Detection where
  bbox : Rect
  class_id : ℤ
  confidence : ℚ
deriving DecidableEq, Repr

/-- Default detection used as fallback for total list indexing. -/
def defaultDetection : Detection := ⟨⟨0, 0, 0, 0⟩, 0, 0⟩

/-- Intersection area of two rectangles (zero when they do not
overlap), as computed by rectangle IoU. -/
def interArea (a b : Rect) : ℤ :=
  max 0 (min (a.x + a.w) (b.x + b.w) - max a.x b.x) *
    max 0 (min (a.y + a.h) (b.y + b.h) - max a.y b.y)

/-- Intersection-over-union of two rectangles. -/
def iou (a b : Rect) : ℚ :=
  ((interArea a b : ℤ) : ℚ) / ((a.w * a.h + b.w * b.h - interArea a b : ℤ) : ℚ)

/-- Shift a rectangle by the same offset in x and y, as the class-based
spatial offset does (detector_server.cpp:584-587). -/
def offsetRect (r : Rect) (o : ℤ) : Rect :=
  { r with x := r.x + o, y := r.y + o }

/-- Insert an index into a list of indices sorted by descending
confidence, after all indices of greater-or-equal confidence (so that
equal scores keep input order). -/
def insertIdxDesc (confidences : List ℚ) (i : ℕ) : List ℕ → List ℕ
  | [] => [i]
  | j :: rest =>
      if confidences.getD i 0 ≤ confidences.getD j 0 then
        j :: insertIdxDesc confidences i rest
      else
        i :: j :: rest

/-- Indices 0..n-1 sorted by descending confidence, ties broken by
input order (stable). -/
def sortScoresDesc (confidences : List ℚ) : List ℕ :=
  (List.range confidences.length).foldl
    (fun acc i => insertIdxDesc confidences i acc) []

/-- Greedy suppression pass: walk the score-sorted indices, keeping an
index iff its IoU with every already-kept box is below the threshold. -/
def nmsGreedy (boxes : List Rect) (nmsThr : ℚ) :
    List ℕ → List ℕ → List ℕ
  | kept, [] => kept.reverse
  | kept, i :: rest =>
      if kept.all fun k =>
          decide (iou (boxes.getD i ⟨0, 0, 0, 0⟩) (boxes.getD k ⟨0, 0, 0, 0⟩) <
            nmsThr) then
        nmsGreedy boxes nmsThr (i :: kept) rest
      else
        nmsGreedy boxes nmsThr kept rest

/-- Modelled from the spec: cv::dnn::NMSBoxes is external library code
(OpenCV, not part of this repository); section 4.6 of the spec gives
its contract as standard NMS: sort by descending score with ties broken
by input order, then greedily keep a box iff its IoU with every
already-kept box is below the IoU threshold. Returns the surviving
indices into the given box list. -/
def nmsBoxes (boxes : List Rect) (confidences : List ℚ) (nmsThr : ℚ) :
    List ℕ :=
  nmsGreedy boxes nmsThr [] (sortScoresDesc confidences)

/-- Embedding of DetectorServer::ApplyNonMaximumSuppression
(detector_server.cpp:549-629): compute the maximum kept coordinate,
offset each score-passing box by class_id times (max + 1), run NMS on
the offset boxes, and rebuild the output by indexing the original
detection list with the surviving indices. -/
def applyNMS (detections : List Detection) : List Detection :=
  if detections.isEmpty then detections
  else
    let score_threshold : ℚ := 1 / 10
    let nms_threshold : ℚ := 9 / 20
    let max_coord : ℤ := detections.foldl
      (fun m d =>
        if score_threshold ≤ d.confidence then
          max m (max (d.bbox.x + d.bbox.w) (d.bbox.y + d.bbox.h))
        else m) 0
    let filtered := detections.filter fun d =>
      decide (score_threshold ≤ d.confidence)
    let boxes := filtered.map fun d =>
      offsetRect d.bbox (d.class_id * (max_coord + 1))
    let confidences := filtered.map fun d => d.confidence
    let nms_indices := nmsBoxes boxes confidences nms_threshold
    nms_indices.map fun idx => detections.getD idx defaultDetection

/-- Truncation toward zero of a rational, embedding the C++
static_cast from double to int. -/
def ratTrunc (q : ℚ) : ℤ :=
  if q < 0 then -(⌊-q⌋) else ⌊q⌋

/-- Embedding of DetectorServer::ScaleDetectionsToOriginalFrame
(detector_server.cpp:631-697): undo the letterbox mapping
(x - dx)/scale, (y - dy)/scale, w/scale, h/scale, then clamp x to
[0, W], y to [0, H], w to [max 1 (min w (W - x))] and h likewise,
and truncate to integers. -/
def scaleDetectionsToOriginalFrame (detections : List Detection)
    (netW netH origW origH : ℤ) : List Detection :=
  if detections.isEmpty then detections
  else
    let scale : ℚ := min ((netW : ℚ) / (origW : ℚ)) ((netH : ℚ) / (origH : ℚ))
    let new_width : ℤ := ratTrunc ((origW : ℚ) * scale)
    let new_height : ℤ := ratTrunc ((origH : ℚ) * scale)
    let dx : ℤ := (netW - new_width) / 2
    let dy : ℤ := (netH - new_height) / 2
    detections.map fun d =>
      let x0 : ℚ := ((d.bbox.x - dx : ℤ) : ℚ) / scale
      let y0 : ℚ := ((d.bbox.y - dy : ℤ) : ℚ) / scale
      let w0 : ℚ := ((d.bbox.w : ℤ) : ℚ) / scale
      let h0 : ℚ := ((d.bbox.h : ℤ) : ℚ) / scale
      let x1 : ℚ := max 0 (min x0 (origW : ℚ))
      let y1 : ℚ := max 0 (min y0 (origH : ℚ))
      let w1 : ℚ := max 1 (min w0 ((origW : ℚ) - x1))
      let h1 : ℚ := max 1 (min h0 ((origH : ℚ) - y1))
      { d with bbox := ⟨ratTrunc x1, ratTrunc y1, ratTrunc w1, ratTrunc h1⟩ }

/-- A network output tensor: the shape (sizes per dimension, all
nonnegative as in cv::Mat) and the flattened float data. -/
structure Tensor where
  shape : List ℕ
  data : List ℚ
deriving DecidableEq, Repr

/-- Emptiness of a cv::Mat: no dimensions at all, or zero total
elements. -/
def Tensor.isEmptyMat (t : Tensor) : Bool :=
  t.shape.isEmpty || (t.shape.prod == 0)

/-- Number of anchors selected by the rank dispatch of
ParseNetworkOutput (detector_server.cpp:403-427): shape index 0, 1 or 2
for ranks 2, 3 and 4. -/
def Tensor.numDetections (t : Tensor) : ℕ :=
  if t.shape.length = 2 then t.shape.getD 0 0
  else if t.shape.length = 3 then t.shape.getD 1 0
  else if t.shape.length = 4 then t.shape.getD 2 0
  else 0

/-- Per-anchor stride K selected by the rank dispatch of
ParseNetworkOutput: the last shape entry for ranks 2, 3 and 4. -/
def Tensor.detectionSize (t : Tensor) : ℕ :=
  if t.shape.length = 2 then t.shape.getD 1 0
  else if t.shape.length = 3 then t.shape.getD 2 0
  else if t.shape.length = 4 then t.shape.getD 3 0
  else 0

/-- One anchor of the parse loop (detector_server.cpp:451-537): skip on
low object confidence, find the best class, combine scores, skip on low
final score or missing class, convert the normalized center box to a
clamped top-left pixel box. -/
def parseAnchor (netW netH : ℤ) (row : List ℚ) : Option Detection :=
  let box_confidence := row.getD 4 0
  if box_confidence < 1 / 10 then none
  else
    let scan := (row.drop 5).foldl
      (fun acc s =>
        if s > acc.2.1 then (acc.2.2, s, acc.2.2 + 1)
        else (acc.1, acc.2.1, acc.2.2 + 1))
      ((-1 : ℤ), (0 : ℚ), (0 : ℤ))
    let best_class_id := scan.1
    let max_class_confidence := scan.2.1
    let final_confidence := box_confidence * max_class_confidence
    if final_confidence < 1 / 10 ∨ best_class_id < 0 then none
    else
      let scx := row.getD 0 0 * (netW : ℚ)
      let scy := row.getD 1 0 * (netH : ℚ)
      let sw0 := row.getD 2 0 * (netW : ℚ)
      let sh0 := row.getD 3 0 * (netH : ℚ)
      let x0 := scx - sw0 / 2
      let y0 := scy - sh0 / 2
      let x1 := max 0 (min x0 ((netW : ℚ) - sw0))
      let y1 := max 0 (min y0 ((netH : ℚ) - sh0))
      let sw1 := max 1 (min sw0 ((netW : ℚ) - x1))
      let sh1 := max 1 (min sh0 ((netH : ℚ) - y1))
      some ⟨⟨ratTrunc x1, ratTrunc y1, ratTrunc sw1, ratTrunc sh1⟩,
        best_class_id, final_confidence⟩

/-- The anchor loop of ParseNetworkOutput: process anchors i, i+1, ...
while the bounds check i*K + K ≤ total holds, breaking out otherwise. -/
def parseRows (netW netH : ℤ) (data : List ℚ) (stride total : ℕ) :
    ℕ → ℕ → List Detection
  | _, 0 => []
  | i, remaining + 1 =>
      if i * stride + stride > total then []
      else
        match parseAnchor netW netH ((data.drop (i * stride)).take stride) with
        | some d => d :: parseRows netW netH data stride total (i + 1) remaining
        | none => parseRows netW netH data stride total (i + 1) remaining

/-- Embedding of DetectorServer::ParseNetworkOutput
(detector_server.cpp:366-547): empty tensor returns no detections and
no error; rank below 2 or above 4, a null data buffer, or stride below
5 return no detections with an error reported; zero anchors return no
detections without error; otherwise runs the anchor loop. The Bool is
true iff an error was reported. -/
def parseNetworkOutput (netW netH : ℤ) (t : Tensor) :
    List Detection × Bool :=
  if t.isEmptyMat then ([], false)
  else if t.shape.length < 2 then ([], true)
  else if t.data.isEmpty then ([], true)
  else if 4 < t.shape.length then ([], true)
  else if t.detectionSize < 5 then ([], true)
  else if t.numDetections = 0 then ([], false)
  else
    (parseRows netW netH t.data t.detectionSize t.shape.prod 0
      t.numDetections, false)

/-- Center of a detection box (detector_server.cpp:727-733):
x + w/2 and y + h/2 in exact arithmetic. -/
def getDetectionCenter (d : Detection) : ℚ × ℚ :=
  (((d.bbox.x : ℤ) : ℚ) + ((d.bbox.w : ℤ) : ℚ) / 2,
    ((d.bbox.y : ℤ) : ℚ) + ((d.bbox.h : ℤ) : ℚ) / 2)

/-- Embedding of DetectorServer::FindContainingPolygons
(detector_server.cpp:735-747): all zones containing the center. -/
def findContainingPolygons (cx cy : ℚ) (polygons : List Polygon) :
    List Polygon :=
  polygons.filter fun p => p.Contains cx cy

/-- Embedding of DetectorServer::IsDetectionClassAllowed
(detector_server.cpp:769-780): empty target list admits every class,
otherwise the class must be listed. -/
def isDetectionClassAllowed (d : Detection) (p : Polygon) : Bool :=
  p.target_classes.isEmpty || p.target_classes.contains d.class_id

/-- Embedding of DetectorServer::ShouldIncludeDetection
(detector_server.cpp:749-767): decide by the first zone of the given
(sorted) containing list. -/
def shouldIncludeDetection (d : Detection) (containing : List Polygon) :
    Bool :=
  match containing with
  | [] => false
  | z :: _ =>
      match z.type with
      | PolygonType.EXCLUSION => false
      | PolygonType.INCLUSION => isDetectionClassAllowed d z
      | PolygonType.UNSPECIFIED => false

/-- Specification of an allowed std::sort outcome for the
descending-priority comparator (detector_server.cpp:714-717 and
283-287): any permutation of the input that is pairwise sorted by
descending priority. std::sort does not promise stability, so the
embedding is parameterized by the sorting function. -/
def ValidSorter (srt : List Polygon → List Polygon) : Prop :=
  ∀ l : List Polygon,
    (srt l).Perm l ∧ (srt l).Pairwise fun a b => b.priority ≤ a.priority

/-- Embedding of DetectorServer::FilterDetectionsByPolygons
(detector_server.cpp:699-725), parameterized by the std::sort outcome:
keep a detection iff its center lies in some zone and the decision on
the priority-sorted containing zones admits it. -/
def filterDetectionsByPolygons (srt : List Polygon → List Polygon)
    (detections : List Detection) (polygons : List Polygon) :
    List Detection :=
  detections.filter fun d =>
    let c := getDetectionCenter d
    let containing := findContainingPolygons c.1 c.2 polygons
    if containing.isEmpty then false
    else shouldIncludeDetection d (srt containing)

/-- Insert a polygon into a descending-priority sorted list after all
entries of greater-or-equal priority (stable insertion). -/
def insertPolyDesc (p : Polygon) : List Polygon → List Polygon
  | [] => [p]
  | q :: rest =>
      if p.priority ≤ q.priority then q :: insertPolyDesc p rest
      else p :: q :: rest

/-- Stable insertion sort by descending priority: ties keep input
order. This is one allowed std::sort outcome, the one the spec
describes. -/
def stableSortPolysDesc (l : List Polygon) : List Polygon :=
  l.foldl (fun acc p => insertPolyDesc p acc) []

/-- Another allowed std::sort outcome: stable-sort the reversed input,
so that equal-priority zones come out in reverse input order. -/
def antiStableSortPolysDesc (l : List Polygon) : List Polygon :=
  stableSortPolysDesc l.reverse

/-- A decoded request polygon as it arrives on the wire
(polygon.proto): vertex list, type, priority and target classes. -/
structure ProtoPolygon where
  vertices : List Point
  type : PolygonType
  priority : ℤ
  target_classes : List ℤ
deriving DecidableEq, Repr

/-- Embedding of Polygon::FromProto (polygon.cpp:56-73): field-wise
copy of the decoded message. -/
def Polygon.FromProto (pp : ProtoPolygon) : Polygon :=
  ⟨pp.vertices, pp.type, pp.priority, pp.target_classes⟩

/-- gRPC status codes used by the ProcessFrame handler. -/
inductive StatusCode where
  | OK
  | INVALID_ARGUMENT
  | INTERNAL
deriving DecidableEq, Repr

/-- Observable outcome of a ProcessFrame rejection: the returned status
code, the success flag written to the response, and the result frame
field (none = never set). -/
structure RejectInfo where
  code : StatusCode
  success : Bool
  resultFrame : Option Unit
deriving DecidableEq, Repr

/-- Embedding of the validation prefix of DetectorServer::ProcessFrame
(detector_server.cpp:247-287): reject with INVALID_ARGUMENT when the
request has no polygons; decode the polygons, discarding those of
UNSPECIFIED type; reject with INVALID_ARGUMENT when nothing remains;
otherwise sort the survivors by descending priority (std::sort outcome
given by the sorter parameter). In both rejection branches the response
has success = false and no result frame. -/
def processFrameValidate (srt : List Polygon → List Polygon)
    (reqPolygons : List ProtoPolygon) :
    Except RejectInfo (List Polygon) :=
  if reqPolygons.length = 0 then
    .error ⟨StatusCode.INVALID_ARGUMENT, false, none⟩
  else
    let polygons := (reqPolygons.map Polygon.FromProto).filter fun p =>
      p.type ≠ PolygonType.UNSPECIFIED
    if polygons.isEmpty then
      .error ⟨StatusCode.INVALID_ARGUMENT, false, none⟩
    else
      .ok (srt polygons)

/-- Concrete square zone vertices used by the worked examples below. -/
def sqVerts : List Point := [⟨0, 0⟩, ⟨100, 0⟩, ⟨100, 100⟩, ⟨0, 100⟩]

/-- An Inclusion zone over the square, priority 1, all classes. -/
def zoneIncl : Polygon := ⟨sqVerts, PolygonType.INCLUSION, 1, []⟩

/-- An Exclusion zone over the same square, also priority 1. -/
def zoneExcl : Polygon := ⟨sqVerts, PolygonType.EXCLUSION, 1, []⟩

/-- A detection whose center (50, 50) lies inside the square. -/
def detMid : Detection := ⟨⟨40, 40, 20, 20⟩, 0, 9 / 10⟩

/-- A right triangle used for the scaling counterexample. -/
def triZone : Polygon :=
  ⟨[⟨0, 0⟩, ⟨100, 0⟩, ⟨0, 100⟩], PolygonType.INCLUSION, 0, []⟩

/-- A small triangle used for the scaling witness. -/
def triSmall : Polygon :=
  ⟨[⟨0, 0⟩, ⟨4, 0⟩, ⟨0, 4⟩], PolygonType.INCLUSION, 0, []⟩

/-- High-scoring class-0 box at the origin. -/
def nmsHigh : Detection := ⟨⟨0, 0, 10, 10⟩, 0, 9 / 10⟩

/-- Class-0 duplicate of the origin box with a lower score. -/
def nmsDupA : Detection := ⟨⟨0, 0, 10, 10⟩, 0, 1 / 2⟩

/-- Class-1 box with the same geometry as nmsDupA. -/
def nmsDupB : Detection := ⟨⟨0, 0, 10, 10⟩, 1, 1 / 2⟩

/-- A detection below the NMS score threshold. -/
def lowConfDet : Detection := ⟨⟨0, 0, 10, 10⟩, 0, 1 / 20⟩

/-- A detection above the NMS score threshold at a different position. -/
def highConfDet : Detection := ⟨⟨50, 50, 10, 10⟩, 0, 9 / 10⟩

/-- A detection far outside the model canvas, exercising the clamp of
the inverse letterbox mapping. -/
def farDet : Detection := ⟨⟨448, 0, 10, 10⟩, 0, 1⟩

/-- The box produced for farDet by the inverse letterbox mapping at
model size 224 and original frame 2 by 2. -/
def clampedDet : Detection := ⟨⟨2, 0, 1, 1⟩, 0, 1⟩

/-- A request polygon of UNSPECIFIED type. -/
def unspecProto : ProtoPolygon := ⟨[], PolygonType.UNSPECIFIED, 0, []⟩

/-- A well-formed Inclusion request polygon. -/
def inclProto : ProtoPolygon := ⟨sqVerts, PolygonType.INCLUSION, 1, []⟩

/-! Theorems. -/

theorem boundaryHit_iff (p : Polygon) (x y : ℚ) :
    p.boundaryHit x y = true ↔ NearSomeVertex p x y ∨ OnSomeEdge p x y := by
  unfold Polygon.boundaryHit NearSomeVertex OnSomeEdge
  rw [List.any_eq_true]
  constructor
  · rintro ⟨i, hi, hcond⟩
    rw [List.mem_range] at hi
    simp only [Bool.or_eq_true, Bool.and_eq_true, decide_eq_true_eq] at hcond
    rcases hcond with ⟨hx, hy⟩ | hseg
    · exact Or.inl ⟨i, hi, hx, hy⟩
    · exact Or.inr ⟨i, hi, hseg⟩
  · rintro (⟨i, hi, hx, hy⟩ | ⟨i, hi, hseg⟩)
    · exact ⟨i, List.mem_range.mpr hi, by
        simp only [Bool.or_eq_true, Bool.and_eq_true, decide_eq_true_eq]
        exact Or.inl ⟨hx, hy⟩⟩
    · exact ⟨i, List.mem_range.mpr hi, by
        simp only [Bool.or_eq_true, Bool.and_eq_true, decide_eq_true_eq]
        exact Or.inr hseg⟩

/-- C2: Polygon::Contains returns true iff the polygon has at least
three vertices, the query point is neither within EPSILON of a vertex
nor on any edge of the polygon, and the horizontal ray toward +x
crosses an odd number of edges under the ray-casting test. -/
theorem contains_characterization (p : Polygon) (x y : ℚ) :
    p.Contains x y = true ↔
      3 ≤ p.vertices.length ∧ ¬(NearSomeVertex p x y ∨ OnSomeEdge p x y) ∧
        Odd (p.rayCrossings x y) := by
  unfold Polygon.Contains
  by_cases h3 : p.vertices.length < 3
  · simp only [if_pos h3]
    constructor
    · intro h; cases h
    · rintro ⟨h, -, -⟩; omega
  · rw [if_neg h3]
    by_cases hb : p.boundaryHit x y
    · rw [if_pos hb]
      constructor
      · intro h; cases h
      · rintro ⟨-, hnb, -⟩
        exact absurd ((boundaryHit_iff p x y).mp hb) hnb
    · rw [if_neg hb]
      have hnb : ¬(NearSomeVertex p x y ∨ OnSomeEdge p x y) := fun h =>
        hb ((boundaryHit_iff p x y).mpr h)
      constructor
      · intro h
        refine ⟨by omega, hnb, ?_⟩
        rw [Nat.odd_iff]
        simpa using h
      · rintro ⟨-, -, hodd⟩
        rw [Nat.odd_iff] at hodd
        show (p.rayCrossings x y % 2 == 1) = true
        simp [hodd]

/-- C10: Polygon::Scale multiplies each vertex coordinate by the
matching factor and leaves the vertex count, vertex order, type,
priority and target class list unchanged. -/
theorem scale_frame_effect (p : Polygon) (sx sy : ℚ) :
    (p.Scale sx sy).vertices.length = p.vertices.length ∧
    (∀ i : ℕ, (p.Scale sx sy).vertices.get? i =
      (p.vertices.get? i).map fun v => ⟨v.x * sx, v.y * sy⟩) ∧
    (p.Scale sx sy).type = p.type ∧
    (p.Scale sx sy).priority = p.priority ∧
    (p.Scale sx sy).target_classes = p.target_classes := by
  refine ⟨List.length_map _ _, fun i => ?_, rfl, rfl, rfl⟩
  simp [Polygon.Scale, List.get?_eq_getElem?, List.getElem?_map]

theorem vtx_scale (p : Polygon) (sx sy : ℚ) (i : ℕ) :
    (p.Scale sx sy).vtx i = ⟨(p.vtx i).x * sx, (p.vtx i).y * sy⟩ := by
  unfold Polygon.vtx Polygon.Scale
  cases h : p.vertices[i]? with
  | none =>
      simp [List.getD, List.getElem?_map, h]
  | some v =>
      simp [List.getD, List.getElem?_map, h]

theorem crossesEdge_scale (sx sy x y xi yi xj yj : ℚ)
    (hsx : 0 < sx) (hsy : 0 < sy) :
    crossesEdge (sx * x) (sy * y) (xi * sx) (yi * sy) (xj * sx) (yj * sy) =
      crossesEdge x y xi yi xj yj := by
  unfold crossesEdge
  have e1 : (yi * sy > sy * y) ↔ (yi > y) := by
    rw [gt_iff_lt, gt_iff_lt, mul_comm yi sy, mul_lt_mul_left hsy]
  have e2 : (yj * sy > sy * y) ↔ (yj > y) := by
    rw [gt_iff_lt, gt_iff_lt, mul_comm yj sy, mul_lt_mul_left hsy]
  have e3 : (sx * x < (xj * sx - xi * sx) * (sy * y - yi * sy) /
      (yj * sy - yi * sy) + xi * sx) ↔
      (x < (xj - xi) * (y - yi) / (yj - yi) + xi) := by
    have hd : (xj * sx - xi * sx) * (sy * y - yi * sy) /
        (yj * sy - yi * sy) = sx * ((xj - xi) * ((y - yi) / (yj - yi))) := by
      have h1 : xj * sx - xi * sx = (xj - xi) * sx := by ring
      have h2 : sy * y - yi * sy = sy * (y - yi) := by ring
      have h3 : yj * sy - yi * sy = sy * (yj - yi) := by ring
      rw [h1, h2, h3, mul_div_assoc, mul_div_mul_left _ _ (ne_of_gt hsy)]
      ring
    rw [hd]
    have : (xj - xi) * ((y - yi) / (yj - yi)) + xi =
        (xj - xi) * (y - yi) / (yj - yi) + xi := by
      rw [mul_div_assoc]
    calc (sx * x < sx * ((xj - xi) * ((y - yi) / (yj - yi))) + xi * sx) ↔
        (sx * x < sx * ((xj - xi) * ((y - yi) / (yj - yi)) + xi)) := by
          constructor <;> intro h <;> nlinarith [h]
      _ ↔ (x < (xj - xi) * ((y - yi) / (yj - yi)) + xi) :=
          mul_lt_mul_left hsx
      _ ↔ _ := by rw [this]
  rw [decide_eq_decide.mpr e1, decide_eq_decide.mpr e2, decide_eq_decide.mpr e3]

theorem rayCrossings_scale (p : Polygon) (x y sx sy : ℚ)
    (hsx : 0 < sx) (hsy : 0 < sy) :
    (p.Scale sx sy).rayCrossings (sx * x) (sy * y) = p.rayCrossings x y := by
  have hlen : (p.Scale sx sy).vertices.length = p.vertices.length :=
    List.length_map _ _
  simp only [Polygon.rayCrossings, hlen]
  congr 1
  apply List.filter_congr
  intro i _
  rw [vtx_scale, vtx_scale, crossesEdge_scale _ _ _ _ _ _ _ _ hsx hsy]

/-- C6 (amended): containment commutes with positive scaling whenever
the EPSILON boundary checks fire neither before nor after scaling; the
parity of ray crossings is invariant under positive axis scaling. -/
theorem contains_scale_commute (p : Polygon) (x y sx sy : ℚ)
    (hsx : 0 < sx) (hsy : 0 < sy)
    (hb1 : p.boundaryHit x y = false)
    (hb2 : (p.Scale sx sy).boundaryHit (sx * x) (sy * y) = false) :
    p.Contains x y = (p.Scale sx sy).Contains (sx * x) (sy * y) := by
  have hlen : (p.Scale sx sy).vertices.length = p.vertices.length :=
    List.length_map _ _
  simp only [Polygon.Contains, hlen, hb1, hb2,
    rayCrossings_scale p x y sx sy hsx hsy, Bool.false_eq_true, if_false]

/-- C6 (counterexample): for the triangle (0,0), (100,0), (0,100), the
interior point (5e-11, 5e-11) and the positive factors sx = sy = 1e12,
containment does not commute with scaling: the unscaled query trips the
EPSILON vertex check (outside) while the scaled query is interior. -/
theorem contains_scale_counterexample :
    (0 : ℚ) < 10 ^ 12 ∧
    triZone.Contains (1 / 20000000000) (1 / 20000000000) ≠
      (triZone.Scale (10 ^ 12) (10 ^ 12)).Contains
        (10 ^ 12 * (1 / 20000000000)) (10 ^ 12 * (1 / 20000000000)) := by
  have h1 : triZone.Contains (1 / 20000000000) (1 / 20000000000) = false := by
    norm_num [Polygon.Contains, Polygon.boundaryHit, triZone, Polygon.vtx,
      isPointOnLineSegment, EPSILON, List.range_succ, abs_lt, le_abs]
  have h2 : (triZone.Scale (10 ^ 12) (10 ^ 12)).Contains
      (10 ^ 12 * (1 / 20000000000)) (10 ^ 12 * (1 / 20000000000)) = true := by
    norm_num [Polygon.Contains, Polygon.boundaryHit, Polygon.rayCrossings,
      triZone, Polygon.Scale, Polygon.vtx, isPointOnLineSegment, crossesEdge,
      EPSILON, List.range_succ, abs_lt, le_abs]
  refine ⟨by norm_num, ?_⟩
  rw [h1, h2]
  exact Bool.false_ne_true

/-- Witness for contains_scale_commute at the triangle (0,0), (4,0),
(0,4), the point (1,1) and factors sx = sy = 2. -/
theorem contains_scale_commute_witness :
    (0 : ℚ) < 2 ∧ triSmall.boundaryHit 1 1 = false ∧
    (triSmall.Scale 2 2).boundaryHit (2 * 1) (2 * 1) = false ∧
    triSmall.Contains 1 1 = (triSmall.Scale 2 2).Contains (2 * 1) (2 * 1) := by
  have hb1 : triSmall.boundaryHit 1 1 = false := by
    norm_num [Polygon.boundaryHit, triSmall, Polygon.vtx, isPointOnLineSegment,
      EPSILON, List.range_succ, abs_lt, le_abs]
  have hb2 : (triSmall.Scale 2 2).boundaryHit (2 * 1) (2 * 1) = false := by
    norm_num [Polygon.boundaryHit, triSmall, Polygon.Scale, Polygon.vtx,
      isPointOnLineSegment, EPSILON, List.range_succ, abs_lt, le_abs]
  exact ⟨by norm_num, hb1, hb2,
    contains_scale_commute triSmall 1 1 2 2 (by norm_num) (by norm_num) hb1 hb2⟩

theorem insertPolyDesc_perm (p : Polygon) (l : List Polygon) :
    (insertPolyDesc p l).Perm (p :: l) := by
  induction l with
  | nil => exact List.Perm.refl _
  | cons q rest ih =>
      unfold insertPolyDesc
      by_cases h : p.priority ≤ q.priority
      · rw [if_pos h]
        exact ((ih.cons q).trans (List.Perm.swap p q rest)).symm.symm
      · rw [if_neg h]

theorem insertPolyDesc_sorted (p : Polygon) (l : List Polygon)
    (h : l.Pairwise fun a b => b.priority ≤ a.priority) :
    (insertPolyDesc p l).Pairwise fun a b => b.priority ≤ a.priority := by
  induction l with
  | nil => simp [insertPolyDesc]
  | cons q rest ih =>
      rw [List.pairwise_cons] at h
      unfold insertPolyDesc
      by_cases hpq : p.priority ≤ q.priority
      · rw [if_pos hpq]
        rw [List.pairwise_cons]
        refine ⟨?_, ih h.2⟩
        intro r hr
        have hr' : r ∈ p :: rest := (insertPolyDesc_perm p rest).mem_iff.mp hr
        rcases List.mem_cons.mp hr' with rfl | hr''
        · exact hpq
        · exact h.1 r hr''
      · rw [if_neg hpq]
        rw [List.pairwise_cons]
        refine ⟨?_, List.pairwise_cons.mpr h⟩
        intro r hr
        rcases List.mem_cons.mp hr with rfl | hr'
        · exact le_of_lt (lt_of_not_le hpq)
        · exact le_trans (h.1 r hr') (le_of_lt (lt_of_not_le hpq))

theorem stableSortPolysDesc_perm_aux (l acc : List Polygon) :
    (l.foldl (fun a p => insertPolyDesc p a) acc).Perm (l ++ acc) := by
  induction l generalizing acc with
  | nil => simp
  | cons p rest ih =>
      simp only [List.foldl_cons, List.cons_append]
      have h1 := ih (insertPolyDesc p acc)
      have h2 : (rest ++ insertPolyDesc p acc).Perm (rest ++ p :: acc) :=
        List.Perm.append_left rest (insertPolyDesc_perm p acc)
      exact (h1.trans h2).trans List.perm_middle

theorem stableSortPolysDesc_sorted_aux (l acc : List Polygon)
    (h : acc.Pairwise fun a b => b.priority ≤ a.priority) :
    (l.foldl (fun a p => insertPolyDesc p a) acc).Pairwise
      fun a b => b.priority ≤ a.priority := by
  induction l generalizing acc with
  | nil => exact h
  | cons p rest ih =>
      simp only [List.foldl_cons]
      exact ih _ (insertPolyDesc_sorted p acc h)

theorem validSorter_stable : ValidSorter stableSortPolysDesc := by
  intro l
  constructor
  · have := stableSortPolysDesc_perm_aux l []
    simpa [stableSortPolysDesc] using this
  · exact stableSortPolysDesc_sorted_aux l [] List.Pairwise.nil

theorem validSorter_anti : ValidSorter antiStableSortPolysDesc := by
  intro l
  constructor
  · exact ((validSorter_stable l.reverse).1.trans (List.reverse_perm l))
  · exact (validSorter_stable l.reverse).2

theorem validSorter_head_max (srt : List Polygon → List Polygon)
    (hsrt : ValidSorter srt) (l : List Polygon) (z : Polygon)
    (hz : (srt l).head? = some z) :
    z ∈ l ∧ ∀ q ∈ l, q.priority ≤ z.priority := by
  obtain ⟨hperm, hsorted⟩ := hsrt l
  rcases hsl : srt l with _ | ⟨a, rest⟩
  · rw [hsl] at hz; cases hz
  · rw [hsl] at hz hperm hsorted
    rw [List.head?_cons, Option.some_inj] at hz
    subst hz
    rw [List.pairwise_cons] at hsorted
    refine ⟨hperm.mem_iff.mp (List.mem_cons_self _ _), fun q hq => ?_⟩
    rcases List.mem_cons.mp (hperm.mem_iff.mpr hq) with rfl | hq'
    · exact le_refl _
    · exact hsorted.1 q hq'

theorem classAllowed_iff (d : Detection) (z : Polygon) :
    isDetectionClassAllowed d z = true ↔
      z.target_classes = [] ∨ d.class_id ∈ z.target_classes := by
  unfold isDetectionClassAllowed
  simp

/-- C1: for any allowed std::sort outcome, a detection passes the zone
filter iff its center lies in at least one zone and the first zone of
the sorted containing set has type Inclusion with an empty target list
or one containing the detection class; that first zone is always a
containing zone of maximal priority; and a detection whose center lies
in no zone is dropped. -/
theorem zone_filter_decision (srt : List Polygon → List Polygon)
    (hsrt : ValidSorter srt) (polygons : List Polygon)
    (detections : List Detection) (d : Detection) :
    (d ∈ filterDetectionsByPolygons srt detections polygons ↔
      d ∈ detections ∧ ∃ z : Polygon,
        (srt (findContainingPolygons (getDetectionCenter d).1
          (getDetectionCenter d).2 polygons)).head? = some z ∧
        z.type = PolygonType.INCLUSION ∧
        (z.target_classes = [] ∨ d.class_id ∈ z.target_classes)) ∧
    (∀ z : Polygon,
      (srt (findContainingPolygons (getDetectionCenter d).1
        (getDetectionCenter d).2 polygons)).head? = some z →
      z ∈ findContainingPolygons (getDetectionCenter d).1
        (getDetectionCenter d).2 polygons ∧
      ∀ q ∈ findContainingPolygons (getDetectionCenter d).1
        (getDetectionCenter d).2 polygons, q.priority ≤ z.priority) ∧
    (findContainingPolygons (getDetectionCenter d).1
      (getDetectionCenter d).2 polygons = [] →
      d ∉ filterDetectionsByPolygons srt detections polygons) := by
  set C := findContainingPolygons (getDetectionCenter d).1
    (getDetectionCenter d).2 polygons with hC
  have hmem : d ∈ filterDetectionsByPolygons srt detections polygons ↔
      d ∈ detections ∧
        (if C.isEmpty then false else shouldIncludeDetection d (srt C)) =
          true := by
    unfold filterDetectionsByPolygons
    rw [List.mem_filter]
  have hdec : (if C.isEmpty then false else
      shouldIncludeDetection d (srt C)) = true ↔
      ∃ z : Polygon, (srt C).head? = some z ∧
        z.type = PolygonType.INCLUSION ∧
        (z.target_classes = [] ∨ d.class_id ∈ z.target_classes) := by
    by_cases hCe : C.isEmpty
    · have hCnil : C = [] := List.isEmpty_iff.mp hCe
      have hsrtnil : srt C = [] := by
        have := (hsrt C).1
        rw [hCnil] at this ⊢
        exact this.eq_nil
      rw [if_pos hCe, hsrtnil]
      simp
    · rw [if_neg hCe]
      rcases hsl : srt C with _ | ⟨z, rest⟩
      · exfalso
        have := (hsrt C).1
        rw [hsl] at this
        exact hCe (List.isEmpty_iff.mpr this.symm.eq_nil)
      · rw [List.head?_cons]
        cases hzt : z.type with
        | UNSPECIFIED =>
            simp only [shouldIncludeDetection, hzt, Option.some_inj]
            constructor
            · intro h; cases h
            · rintro ⟨z', rfl, hz', -⟩
              rw [hzt] at hz'; cases hz'
        | EXCLUSION =>
            simp only [shouldIncludeDetection, hzt, Option.some_inj]
            constructor
            · intro h; cases h
            · rintro ⟨z', rfl, hz', -⟩
              rw [hzt] at hz'; cases hz'
        | INCLUSION =>
            simp only [shouldIncludeDetection, hzt, Option.some_inj,
              classAllowed_iff]
            constructor
            · intro h
              exact ⟨z, rfl, hzt, h⟩
            · rintro ⟨z', rfl, -, hcls⟩
              exact hcls
  refine ⟨hmem.trans (and_congr_right fun _ => hdec), ?_, ?_⟩
  · intro z hz
    exact validSorter_head_max srt hsrt C z hz
  · intro hCnil hd
    have hsrtnil : srt C = [] := by
      have := (hsrt C).1
      rw [hCnil] at this ⊢
      exact this.eq_nil
    obtain ⟨-, z, hz, -, -⟩ := (hmem.trans (and_congr_right fun _ => hdec)).mp hd
    rw [hsrtnil] at hz
    cases hz

/-- Witness for zone_filter_decision: with one all-class Inclusion zone
containing the detection center, the detection passes the filter. -/
theorem zone_filter_decision_witness :
    detMid ∈ filterDetectionsByPolygons stableSortPolysDesc [detMid]
      [zoneIncl] := by
  have hcontain : findContainingPolygons (getDetectionCenter detMid).1
      (getDetectionCenter detMid).2 [zoneIncl] = [zoneIncl] := by
    norm_num [findContainingPolygons, getDetectionCenter, detMid, zoneIncl,
      sqVerts, Polygon.Contains, Polygon.boundaryHit, Polygon.rayCrossings,
      Polygon.vtx, isPointOnLineSegment, crossesEdge, EPSILON,
      List.range_succ, abs_lt, le_abs, List.filter]
  exact ((zone_filter_decision stableSortPolysDesc validSorter_stable
    [zoneIncl] [detMid] detMid).1).mpr
    ⟨List.mem_cons_self _ _, zoneIncl, by rw [hcontain]; rfl, rfl, Or.inl rfl⟩

/-- C5 (counterexample): with two equal-priority zones both containing
the detection center (the earlier an Inclusion, the later an
Exclusion), one allowed std::sort outcome rejects the detection while
the stable tie-break accepts it, so the filter decision is not the
stable one. -/
theorem zone_sort_tie_counterexample :
    ¬ ∀ srt : List Polygon → List Polygon, ValidSorter srt →
      filterDetectionsByPolygons srt [detMid] [zoneIncl, zoneExcl] =
        filterDetectionsByPolygons stableSortPolysDesc [detMid]
          [zoneIncl, zoneExcl] := by
  intro h
  have h2 := h antiStableSortPolysDesc validSorter_anti
  have ha : filterDetectionsByPolygons antiStableSortPolysDesc [detMid]
      [zoneIncl, zoneExcl] = [] := by
    norm_num [filterDetectionsByPolygons, findContainingPolygons,
      getDetectionCenter, detMid, zoneIncl, zoneExcl, sqVerts,
      Polygon.Contains, Polygon.boundaryHit, Polygon.rayCrossings,
      Polygon.vtx, isPointOnLineSegment, crossesEdge, EPSILON,
      List.range_succ, abs_lt, le_abs, List.filter,
      antiStableSortPolysDesc, stableSortPolysDesc, insertPolyDesc,
      shouldIncludeDetection]
  have hs : filterDetectionsByPolygons stableSortPolysDesc [detMid]
      [zoneIncl, zoneExcl] = [detMid] := by
    norm_num [filterDetectionsByPolygons, findContainingPolygons,
      getDetectionCenter, detMid, zoneIncl, zoneExcl, sqVerts,
      Polygon.Contains, Polygon.boundaryHit, Polygon.rayCrossings,
      Polygon.vtx, isPointOnLineSegment, crossesEdge, EPSILON,
      List.range_succ, abs_lt, le_abs, List.filter,
      stableSortPolysDesc, insertPolyDesc, shouldIncludeDetection,
      isDetectionClassAllowed]
  rw [ha, hs] at h2
  cases h2

/-- C5 (amended): for any allowed std::sort outcome, the authoritative
zone used by the filter decision is some containing zone of maximal
priority; which zone wins an equal-priority tie is unspecified. -/
theorem zone_sort_tie_amended (srt : List Polygon → List Polygon)
    (hsrt : ValidSorter srt) (polygons : List Polygon) (cx cy : ℚ)
    (z : Polygon)
    (hz : (srt (findContainingPolygons cx cy polygons)).head? = some z) :
    z ∈ findContainingPolygons cx cy polygons ∧
      ∀ q ∈ findContainingPolygons cx cy polygons,
        q.priority ≤ z.priority :=
  validSorter_head_max srt hsrt _ z hz

/-- Witness for zone_sort_tie_amended at the two equal-priority square
zones and the center (50, 50). -/
theorem zone_sort_tie_amended_witness :
    zoneIncl ∈ findContainingPolygons 50 50 [zoneIncl, zoneExcl] ∧
      ∀ q ∈ findContainingPolygons 50 50 [zoneIncl, zoneExcl],
        q.priority ≤ zoneIncl.priority := by
  have hz : (stableSortPolysDesc
      (findContainingPolygons 50 50 [zoneIncl, zoneExcl])).head? =
      some zoneIncl := by
    norm_num [findContainingPolygons, zoneIncl, zoneExcl, sqVerts,
      Polygon.Contains, Polygon.boundaryHit, Polygon.rayCrossings,
      Polygon.vtx, isPointOnLineSegment, crossesEdge, EPSILON,
      List.range_succ, abs_lt, le_abs, List.filter,
      stableSortPolysDesc, insertPolyDesc]
  exact zone_sort_tie_amended stableSortPolysDesc validSorter_stable
    [zoneIncl, zoneExcl] 50 50 zoneIncl hz

theorem iou_offset_zero (b : Rect) (o1 o2 : ℤ) (h : b.w ≤ |o2 - o1|) :
    iou (offsetRect b o1) (offsetRect b o2) = 0 := by
  have hia : interArea (offsetRect b o1) (offsetRect b o2) = 0 := by
    unfold interArea offsetRect
    simp only
    have hx : min (b.x + o1 + b.w) (b.x + o2 + b.w) -
        max (b.x + o1) (b.x + o2) ≤ 0 := by
      rcases le_total o1 o2 with h' | h'
      · rw [abs_of_nonneg (by linarith)] at h
        rw [min_eq_left (by linarith), max_eq_right (by linarith)]
        linarith
      · rw [abs_of_nonpos (by linarith)] at h
        rw [min_eq_right (by linarith), max_eq_left (by linarith)]
        linarith
    rw [max_eq_left hx, zero_mul]
  unfold iou
  rw [hia]
  simp

theorem nmsBoxes_pair (r1 r2 : Rect) (s1 s2 : ℚ)
    (h21 : iou r2 r1 < 9 / 20) (h12 : iou r1 r2 < 9 / 20) :
    nmsBoxes [r1, r2] [s1, s2] (9 / 20) =
      if s2 ≤ s1 then [0, 1] else [1, 0] := by
  unfold nmsBoxes sortScoresDesc
  have hr : List.range ([s1, s2] : List ℚ).length = [0, 1] := by
    simp [List.range_succ]
  rw [hr]
  simp only [List.foldl_cons, List.foldl_nil]
  rw [show insertIdxDesc [s1, s2] 0 [] = [0] from rfl]
  by_cases hc : s2 ≤ s1
  · rw [if_pos hc]
    simp only [insertIdxDesc, List.getD_cons_zero, List.getD_cons_succ,
      if_pos hc]
    simp only [nmsGreedy, List.all_nil, if_true, List.all_cons,
      Bool.and_true, List.getD_cons_zero, List.getD_cons_succ,
      decide_eq_true h21, List.reverse_cons, List.reverse_nil]
    simp
  · rw [if_neg hc]
    simp only [insertIdxDesc, List.getD_cons_zero, List.getD_cons_succ,
      if_neg hc]
    simp only [nmsGreedy, List.all_nil, if_true, List.all_cons,
      Bool.and_true, List.getD_cons_zero, List.getD_cons_succ,
      decide_eq_true h12, List.reverse_cons, List.reverse_nil]
    simp

theorem applyNMS_pair_eval (d1 d2 : Detection)
    (hbb : d1.bbox = d2.bbox) (hcls : d1.class_id ≠ d2.class_id)
    (h1 : 1 / 10 ≤ d1.confidence) (h2 : 1 / 10 ≤ d2.confidence)
    (hx : 0 ≤ d1.bbox.x) :
    applyNMS [d1, d2] =
      if d2.confidence ≤ d1.confidence then [d1, d2] else [d2, d1] := by
  rcases d1 with ⟨b1, c1, s1⟩
  rcases d2 with ⟨b2, c2, s2⟩
  simp only [Detection.mk.injEq] at hbb ⊢
  simp only at hcls h1 h2 hx
  subst hbb
  set m : ℤ := max (b1.x + b1.w) (b1.y + b1.h) with hm
  set M : ℤ := max (max 0 m) m with hM
  have hMnn : (0 : ℤ) ≤ M := le_trans (le_max_left 0 m) (le_max_left _ _)
  have hwM : b1.w ≤ M := by
    have h1' : b1.w ≤ b1.x + b1.w := by linarith
    have h2' : b1.x + b1.w ≤ m := le_max_left _ _
    have h3' : m ≤ max 0 m := le_max_right _ _
    have h4' : max 0 m ≤ M := le_max_left _ _
    linarith
  have habs : ∀ cA cB : ℤ, cA ≠ cB →
      b1.w ≤ |cB * (M + 1) - cA * (M + 1)| := by
    intro cA cB hne
    have hsub : cB * (M + 1) - cA * (M + 1) = (cB - cA) * (M + 1) := by ring
    rw [hsub, abs_mul, abs_of_nonneg (by linarith : (0 : ℤ) ≤ M + 1)]
    have hone : 1 ≤ |cB - cA| := Int.one_le_abs (sub_ne_zero.mpr (Ne.symm hne))
    have : M + 1 ≤ |cB - cA| * (M + 1) :=
      le_mul_of_one_le_left (by linarith) hone
    linarith
  have hiou21 : iou (offsetRect b1 (c2 * (M + 1)))
      (offsetRect b1 (c1 * (M + 1))) < 9 / 20 := by
    rw [iou_offset_zero b1 _ _ (habs c2 c1 (Ne.symm hcls))]
    norm_num
  have hiou12 : iou (offsetRect b1 (c1 * (M + 1)))
      (offsetRect b1 (c2 * (M + 1))) < 9 / 20 := by
    rw [iou_offset_zero b1 _ _ (habs c1 c2 hcls)]
    norm_num
  simp only [applyNMS, List.isEmpty_cons, Bool.false_eq_true, if_false,
    List.foldl_cons, List.foldl_nil, List.filter_cons, List.filter_nil,
    decide_eq_true_eq, List.map_cons, List.map_nil, h1, h2, if_true,
    ← hm, ← hM]
  rw [nmsBoxes_pair _ _ _ _ hiou21 hiou12]
  by_cases hc : s2 ≤ s1
  · rw [if_pos hc, if_pos hc]
    simp [List.getD_cons_zero, List.getD_cons_succ]
  · rw [if_neg hc, if_neg hc]
    simp [List.getD_cons_zero, List.getD_cons_succ]

/-- C3 (amended): a two-detection input with identical boxes at
nonnegative coordinates, distinct classes and scores at or above the
threshold survives NMS in full: the class offset is strictly larger
than the shared box extent, so the cross-class IoU is zero. -/
theorem nms_cross_class_amended (d1 d2 : Detection)
    (hbb : d1.bbox = d2.bbox) (hcls : d1.class_id ≠ d2.class_id)
    (h1 : 1 / 10 ≤ d1.confidence) (h2 : 1 / 10 ≤ d2.confidence)
    (hx : 0 ≤ d1.bbox.x) :
    d1 ∈ applyNMS [d1, d2] ∧ d2 ∈ applyNMS [d1, d2] := by
  rw [applyNMS_pair_eval d1 d2 hbb hcls h1 h2 hx]
  by_cases hc : d2.confidence ≤ d1.confidence <;> simp [hc]

/-- Witness for nms_cross_class_amended at two identical boxes of
classes 0 and 1. -/
theorem nms_cross_class_amended_witness :
    nmsHigh ∈ applyNMS [nmsHigh, nmsDupB] ∧
      nmsDupB ∈ applyNMS [nmsHigh, nmsDupB] :=
  nms_cross_class_amended nmsHigh nmsDupB rfl (by decide)
    (by norm_num [nmsHigh]) (by norm_num [nmsDupB]) (by decide)

/-- C3 (counterexample): the claim quantifies over any input list
containing the two detections; adding a higher-scoring box of the same
class and geometry as one of them suppresses it (within-class), so the
pair is not always kept. -/
theorem nms_cross_class_counterexample :
    nmsDupA.bbox = nmsDupB.bbox ∧ nmsDupA.class_id ≠ nmsDupB.class_id ∧
    1 / 10 ≤ nmsDupA.confidence ∧ 1 / 10 ≤ nmsDupB.confidence ∧
    nmsDupA ∈ [nmsHigh, nmsDupA, nmsDupB] ∧
    nmsDupA ∉ applyNMS [nmsHigh, nmsDupA, nmsDupB] := by
  have hev : applyNMS [nmsHigh, nmsDupA, nmsDupB] = [nmsHigh, nmsDupB] := by
    norm_num [applyNMS, nmsBoxes, sortScoresDesc, insertIdxDesc, nmsGreedy,
      iou, interArea, offsetRect, defaultDetection, nmsHigh, nmsDupA,
      nmsDupB, List.range_succ, List.getD_cons_zero, List.getD_cons_succ,
      min_def, max_def, List.filter]
  refine ⟨rfl, by decide, by norm_num [nmsDupA], by norm_num [nmsDupB],
    by simp, ?_⟩
  rw [hev]
  norm_num [nmsHigh, nmsDupA, nmsDupB]

/-- C4: evaluation of ApplyNonMaximumSuppression at a list whose first
detection falls below the score threshold: the surviving offset box is
built from the second (high-confidence) detection, but the function
returns the first detection because the surviving index into the
filtered box list is used to index the unfiltered input list. -/
theorem nms_restore_misalignment :
    lowConfDet.confidence < 1 / 10 ∧ 1 / 10 ≤ highConfDet.confidence ∧
    lowConfDet.bbox ≠ highConfDet.bbox ∧
    applyNMS [lowConfDet, highConfDet] = [lowConfDet] := by
  refine ⟨by norm_num [lowConfDet], by norm_num [highConfDet], by decide, ?_⟩
  norm_num [applyNMS, nmsBoxes, sortScoresDesc, insertIdxDesc, nmsGreedy,
    iou, interArea, offsetRect, defaultDetection, lowConfDet, highConfDet,
    List.range_succ, List.getD_cons_zero, List.getD_cons_succ,
    min_def, max_def, List.filter]

theorem clamp_box_side (x0 w0 : ℚ) (W : ℤ) (hW : 1 ≤ W) :
    0 ≤ ratTrunc (max 0 (min x0 (W : ℚ))) ∧
    1 ≤ ratTrunc (max 1 (min w0 ((W : ℚ) - max 0 (min x0 (W : ℚ))))) ∧
    (ratTrunc (max 0 (min x0 (W : ℚ))) +
        ratTrunc (max 1 (min w0 ((W : ℚ) - max 0 (min x0 (W : ℚ))))) ≤ W ∨
      (ratTrunc (max 0 (min x0 (W : ℚ))) = W ∧
        ratTrunc (max 1 (min w0 ((W : ℚ) - max 0 (min x0 (W : ℚ))))) = 1)) := by
  set x1 : ℚ := max 0 (min x0 (W : ℚ)) with hx1
  set w1 : ℚ := max 1 (min w0 ((W : ℚ) - x1)) with hw1
  have hx1nn : (0 : ℚ) ≤ x1 := le_max_left _ _
  have hw1ge1 : (1 : ℚ) ≤ w1 := le_max_left _ _
  have h0W : (0 : ℚ) ≤ (W : ℚ) := by exact_mod_cast (by linarith : (0 : ℤ) ≤ W)
  have hx1leW : x1 ≤ (W : ℚ) := max_le h0W (min_le_right _ _)
  have htx : ratTrunc x1 = ⌊x1⌋ := by
    unfold ratTrunc
    rw [if_neg (not_lt.mpr hx1nn)]
  have htw : ratTrunc w1 = ⌊w1⌋ := by
    unfold ratTrunc
    rw [if_neg (not_lt.mpr (by linarith : (0 : ℚ) ≤ w1))]
  rw [htx, htw]
  refine ⟨Int.floor_nonneg.mpr hx1nn, Int.le_floor.mpr (by exact_mod_cast hw1ge1), ?_⟩
  by_cases hm : min w0 ((W : ℚ) - x1) < 1
  · have hw1eq : w1 = 1 := max_eq_left (le_of_lt hm)
    have hfw : ⌊w1⌋ = 1 := by rw [hw1eq]; exact Int.floor_one
    have hfx : ⌊x1⌋ ≤ W := by
      have := Int.floor_le_floor hx1leW
      rwa [Int.floor_intCast] at this
    rcases lt_or_eq_of_le hfx with hlt | heq
    · left; omega
    · right; exact ⟨heq, hfw⟩
  · have hw1eq : w1 = min w0 ((W : ℚ) - x1) := max_eq_right (not_lt.mp hm)
    have hsum : x1 + w1 ≤ (W : ℚ) := by
      have := min_le_right w0 ((W : ℚ) - x1)
      rw [hw1eq]
      linarith
    left
    have hcast : (↑(⌊x1⌋ + ⌊w1⌋) : ℚ) ≤ (W : ℚ) := by
      push_cast
      have hf1 := Int.floor_le x1
      have hf2 := Int.floor_le w1
      linarith
    exact_mod_cast hcast

/-- C7 (amended): every box returned by ScaleDetectionsToOriginalFrame
satisfies x, y nonnegative, w, h at least 1, and each side fits the
frame except that a coordinate clamped to exactly the frame edge yields
a unit-size box one pixel beyond it. -/
theorem unletterbox_bounds (detections : List Detection)
    (netW netH origW origH : ℤ) (hW : 1 ≤ origW) (hH : 1 ≤ origH)
    (d : Detection)
    (hd : d ∈ scaleDetectionsToOriginalFrame detections netW netH
      origW origH) :
    0 ≤ d.bbox.x ∧ 0 ≤ d.bbox.y ∧ 1 ≤ d.bbox.w ∧ 1 ≤ d.bbox.h ∧
    (d.bbox.x + d.bbox.w ≤ origW ∨ (d.bbox.x = origW ∧ d.bbox.w = 1)) ∧
    (d.bbox.y + d.bbox.h ≤ origH ∨ (d.bbox.y = origH ∧ d.bbox.h = 1)) := by
  unfold scaleDetectionsToOriginalFrame at hd
  by_cases he : detections.isEmpty
  · rw [if_pos he] at hd
    rw [List.isEmpty_iff.mp he] at hd
    exact absurd hd (List.not_mem_nil d)
  · rw [if_neg he] at hd
    simp only [List.mem_map] at hd
    obtain ⟨d0, -, rfl⟩ := hd
    simp only
    obtain ⟨hxA, hxB, hxC⟩ := clamp_box_side
      (((d0.bbox.x - (netW - ratTrunc ((origW : ℚ) *
        min ((netW : ℚ) / (origW : ℚ)) ((netH : ℚ) / (origH : ℚ)))) / 2 : ℤ) : ℚ) /
        min ((netW : ℚ) / (origW : ℚ)) ((netH : ℚ) / (origH : ℚ)))
      (((d0.bbox.w : ℤ) : ℚ) /
        min ((netW : ℚ) / (origW : ℚ)) ((netH : ℚ) / (origH : ℚ)))
      origW hW
    obtain ⟨hyA, hyB, hyC⟩ := clamp_box_side
      (((d0.bbox.y - (netH - ratTrunc ((origH : ℚ) *
        min ((netW : ℚ) / (origW : ℚ)) ((netH : ℚ) / (origH : ℚ)))) / 2 : ℤ) : ℚ) /
        min ((netW : ℚ) / (origW : ℚ)) ((netH : ℚ) / (origH : ℚ)))
      (((d0.bbox.h : ℤ) : ℚ) /
        min ((netW : ℚ) / (origW : ℚ)) ((netH : ℚ) / (origH : ℚ)))
      origH hH
    exact ⟨hxA, hyA, hxB, hyB, hxC, hyC⟩

theorem unletterbox_farDet_eval :
    scaleDetectionsToOriginalFrame [farDet] 224 224 2 2 = [clampedDet] := by
  have f224 : ⌊(224 : ℚ)⌋ = 224 := by
    rw [show (224 : ℚ) = ((224 : ℤ) : ℚ) by norm_num, Int.floor_intCast]
  have f2 : ⌊(2 : ℚ)⌋ = 2 := by
    rw [show (2 : ℚ) = ((2 : ℤ) : ℚ) by norm_num, Int.floor_intCast]
  norm_num [scaleDetectionsToOriginalFrame, farDet, clampedDet, ratTrunc,
    min_def, max_def, f224, f2, Int.floor_one, Int.floor_zero]

/-- C7 (counterexample): for a detection far outside the model canvas
and a 2 by 2 original frame, the returned box has x + w = 3 > 2 = W:
the inverse letterbox clamp allows x to land exactly on the frame edge
with a unit width. -/
theorem unletterbox_counterexample :
    ¬ ∀ d ∈ scaleDetectionsToOriginalFrame [farDet] 224 224 2 2,
      d.bbox.x + d.bbox.w ≤ 2 := by
  rw [unletterbox_farDet_eval]
  intro h
  have := h clampedDet (List.mem_cons_self _ _)
  norm_num [clampedDet] at this

/-- Witness for unletterbox_bounds at the clamped output of farDet on a
2 by 2 frame. -/
theorem unletterbox_bounds_witness :
    0 ≤ clampedDet.bbox.x ∧ 0 ≤ clampedDet.bbox.y ∧
    1 ≤ clampedDet.bbox.w ∧ 1 ≤ clampedDet.bbox.h ∧
    (clampedDet.bbox.x + clampedDet.bbox.w ≤ 2 ∨
      (clampedDet.bbox.x = 2 ∧ clampedDet.bbox.w = 1)) ∧
    (clampedDet.bbox.y + clampedDet.bbox.h ≤ 2 ∨
      (clampedDet.bbox.y = 2 ∧ clampedDet.bbox.h = 1)) :=
  unletterbox_bounds [farDet] 224 224 2 2 (by norm_num) (by norm_num)
    clampedDet (by rw [unletterbox_farDet_eval]; exact List.mem_cons_self _ _)

/-- C8: the ProcessFrame validation prefix rejects an empty request
polygon list with INVALID_ARGUMENT, success = false and no result
frame; it discards decoded zones of UNSPECIFIED type and rejects
identically when nothing remains; otherwise it proceeds with exactly
the retained zones, sorted. -/
theorem process_frame_validation (srt : List Polygon → List Polygon)
    (req : List ProtoPolygon) :
    (req = [] → processFrameValidate srt req =
      Except.error ⟨StatusCode.INVALID_ARGUMENT, false, none⟩) ∧
    ((req.map Polygon.FromProto).filter
        (fun p => p.type ≠ PolygonType.UNSPECIFIED) = [] →
      processFrameValidate srt req =
        Except.error ⟨StatusCode.INVALID_ARGUMENT, false, none⟩) ∧
    ((req.map Polygon.FromProto).filter
        (fun p => p.type ≠ PolygonType.UNSPECIFIED) ≠ [] →
      processFrameValidate srt req =
        Except.ok (srt ((req.map Polygon.FromProto).filter
          (fun p => p.type ≠ PolygonType.UNSPECIFIED)))) := by
  unfold processFrameValidate
  refine ⟨?_, ?_, ?_⟩
  · rintro rfl
    simp
  · intro hf
    by_cases hlen : req.length = 0
    · rw [if_pos hlen]
    · rw [if_neg hlen]
      simp only [List.isEmpty_iff]
      rw [if_pos hf]
  · intro hf
    have hlen : ¬req.length = 0 := by
      intro h0
      rw [List.length_eq_zero] at h0
      subst h0
      simp at hf
    rw [if_neg hlen]
    simp only [List.isEmpty_iff]
    rw [if_neg hf]

/-- Witness for process_frame_validation: an empty request, a request
whose only zone is UNSPECIFIED, and a request with one UNSPECIFIED and
one Inclusion zone. -/
theorem process_frame_validation_witness :
    processFrameValidate stableSortPolysDesc [] =
      Except.error ⟨StatusCode.INVALID_ARGUMENT, false, none⟩ ∧
    processFrameValidate stableSortPolysDesc [unspecProto] =
      Except.error ⟨StatusCode.INVALID_ARGUMENT, false, none⟩ ∧
    processFrameValidate stableSortPolysDesc [unspecProto, inclProto] =
      Except.ok (stableSortPolysDesc [Polygon.FromProto inclProto]) := by
  refine ⟨(process_frame_validation stableSortPolysDesc []).1 rfl,
    (process_frame_validation stableSortPolysDesc [unspecProto]).2.1
      (by decide), ?_⟩
  exact (process_frame_validation stableSortPolysDesc
    [unspecProto, inclProto]).2.2 (by decide)

/-- C9: ParseNetworkOutput returns an empty list with an error when the
tensor is nonempty and its rank is outside 2..4 or its per-anchor
stride is below 5, and an empty list without error for an empty
tensor. -/
theorem parse_error_contract (netW netH : ℤ) (t : Tensor) :
    (t.isEmptyMat = true → parseNetworkOutput netW netH t = ([], false)) ∧
    (t.isEmptyMat = false → (t.shape.length < 2 ∨ 4 < t.shape.length) →
      parseNetworkOutput netW netH t = ([], true)) ∧
    (t.isEmptyMat = false → 2 ≤ t.shape.length → t.shape.length ≤ 4 →
      t.detectionSize < 5 → parseNetworkOutput netW netH t = ([], true)) := by
  unfold parseNetworkOutput
  refine ⟨fun he => by rw [if_pos he], fun he hr => ?_, fun he h2 h4 hk => ?_⟩
  · rw [if_neg (by simp [he])]
    rcases hr with hlt | hgt
    · rw [if_pos hlt]
    · rw [if_neg (by omega)]
      by_cases hd : t.data.isEmpty
      · rw [if_pos hd]
      · rw [if_neg (by simp [hd]), if_pos hgt]
  · rw [if_neg (by simp [he]), if_neg (by omega)]
    by_cases hd : t.data.isEmpty
    · rw [if_pos hd]
    · rw [if_neg (by simp [hd]), if_neg (by omega), if_pos hk]

/-- Witness for parse_error_contract: an empty tensor, a rank-5 tensor
and a rank-2 tensor of stride 4. -/
theorem parse_error_contract_witness :
    parseNetworkOutput 640 640 ⟨[0, 85], []⟩ = ([], false) ∧
    parseNetworkOutput 640 640 ⟨[5, 5, 5, 5, 5], [1]⟩ = ([], true) ∧
    parseNetworkOutput 640 640 ⟨[3, 4], [1, 1, 1, 1]⟩ = ([], true) :=
  ⟨(parse_error_contract 640 640 _).1 (by decide),
    (parse_error_contract 640 640 _).2.1 (by decide) (by norm_num),
    (parse_error_contract 640 640 _).2.2 (by decide) (by norm_num)
      (by norm_num) (by decide)⟩
